import Mathlib

/-!
Verification of the order-creation engine of the astroport-dca contract
(`src/contracts/dca/src/handlers/create_dca_order.rs`), as a shallow
embedding: `Uint128` and `u64` values are embedded as `Nat` with explicit
bounds where overflow matters, storage is the per-user slice touched by the
handler, and fallible steps return `Except`.
-/

deriving instance DecidableEq for Except

namespace AstroportDca

/-- Asset descriptor (`astroport::asset::AssetInfo`): either the chain's
native token, identified by its denomination, or a CW20 contract token,
identified by its contract address. -/
inductive AssetInfo where
  | NativeToken (denom : String)
  | Token (contract_addr : String)
deriving DecidableEq

/-- An asset descriptor together with an amount
(`astroport::asset::Asset`; `amount` is a `Uint128`, embedded as `Nat`). -/
structure Asset where
  info : AssetInfo
  amount : Nat
deriving DecidableEq

/-- One stored DCA order (`astroport_dca::dca::DcaInfo`); its fields are
exactly those constructed at lines 118-125 of `create_dca_order.rs`. -/
structure DcaInfo where
  id : Nat
  initial_asset : Asset
  target_asset : AssetInfo
  interval : Nat
  last_purchase : Nat
  dca_amount : Nat
deriving DecidableEq

/-- Modelled from the spec: the per-user allocator state `UserConfig` of
`state.rs` (not under `src/`) holds the counter `last_id`; the spec gives
`load_config(user) -> UserConfig (default last_id=0)`. -/
structure UserConfig where
  last_id : Nat
deriving DecidableEq

instance : Inhabited UserConfig := ⟨⟨0⟩⟩

/-- Representable maximum of the id counter's unsigned type (`u64`). -/
def U64_MAX : Nat := 2 ^ 64 - 1

/-- Embedding of `u64::checked_add`: `none` on overflow past `U64_MAX`. -/
def checked_add_u64 (a b : Nat) : Option Nat :=
  if a + b ≤ U64_MAX then some (a + b) else none

/-- Embedding of `Uint128::checked_rem`: an error for a zero divisor
(`DivideByZeroError`), otherwise the remainder. -/
def checked_rem (a b : Nat) : Except Unit Nat :=
  if b = 0 then .error () else .ok (a % b)

/-- Standard-library errors that `create_dca_order` can surface wrapped in
`ContractError::Std`: the divide-by-zero mapped at line 85, the overflow
raised by the id allocator at line 111, and the generic error used by the
native-deposit assertion. -/
inductive StdError where
  | DivideByZero
  | Overflow
  | GenericErr (msg : String)
deriving DecidableEq

/-- Rejection kinds of `create_dca_order`. `error.rs` is not under `src/`;
the variants are exactly those the handler constructs, plus `Std` for
propagated standard errors (the `?` conversions at lines 61, 85, 95, 114). -/
inductive ContractError where
  | Std (e : StdError)
  | AlreadyDeposited
  | DuplicateAsset
  | DepositTooSmall
  | IndivisibleDeposit
  | InvalidTokenDeposit
deriving DecidableEq

/-- A native coin attached to a message (`cosmwasm_std::Coin`). -/
structure Coin where
  denom : String
  amount : Nat
deriving DecidableEq

/-- The caller's transaction context (`cosmwasm_std::MessageInfo`): the
attached native funds. The sender is left implicit because the embedding
models the single storage slice keyed by the sender. -/
structure MessageInfo where
  funds : List Coin
deriving DecidableEq

/-- Total amount of a given denomination attached to the message. -/
def attached_amount (denom : String) (funds : List Coin) : Nat :=
  ((funds.filter fun c => c.denom = denom).map Coin.amount).sum

/-- Modelled from the spec: `Asset::assert_sent_native_token_balance` lives
in the external `astroport` crate, not under `src/`. The spec's Balance
Proof Checker reads: "If the source asset is a native currency, confirms
the caller's transaction attached at least `amount` units of that currency
(excess beyond `amount` is not itself an error at this layer)". A failure
surfaces as a generic standard error. -/
def assert_sent_native_token_balance (asset : Asset) (info : MessageInfo) :
    Except StdError Unit :=
  match asset.info with
  | .NativeToken denom =>
      if asset.amount ≤ attached_amount denom info.funds then .ok ()
      else .error (.GenericErr "Native token balance mismatch")
  | .Token _ => .ok ()

/-- The persisted per-user storage slice touched by `create_dca_order`:
`USER_DCA` (the order sequence; absent before the first creation, hence
`Option`) and `USER_CONFIG` (the allocator state). -/
structure Storage where
  user_dca : Option (List DcaInfo)
  user_config : Option UserConfig
deriving DecidableEq

/-- Storage of a user who has never created an order. -/
def Storage.empty : Storage := ⟨none, none⟩

/-- The order sequence as the handler reads it:
`USER_DCA.may_load(..)?.unwrap_or_default()` (lines 60-62). -/
def Storage.orders (s : Storage) : List DcaInfo := s.user_dca.getD []

/-- The allocator counter as the handler reads it:
`config.unwrap_or_default().last_id` (lines 104-106). -/
def Storage.lastId (s : Storage) : Nat := (s.user_config.getD default).last_id

/-- The request payload of `create_dca_order` (struct `CreateDcaOrder`,
lines 13-19). -/
structure CreateDcaOrder where
  initial_asset : Asset
  target_asset : AssetInfo
  interval : Nat
  dca_amount : Nat
  first_purchase : Option Nat
deriving DecidableEq

/-- Display form of an asset descriptor, as used by the response
attributes (the astroport `Display` implementations). -/
def AssetInfo.to_string : AssetInfo → String
  | .NativeToken denom => denom
  | .Token contract_addr => contract_addr

/-- Display form of an asset: amount followed by its descriptor. -/
def Asset.to_string (a : Asset) : String :=
  toString a.amount ++ a.info.to_string

/-- The attributes of the success `Response` (lines 129-135). -/
abbrev Response := List (String × String)

/-- The deposit verification block of `create_dca_order` (lines 91-102): a
native deposit is checked with `assert_sent_native_token_balance` (its error
propagating via `?` as a wrapped standard error), a token deposit against
the exact allowance. -/
def deposit_check (initial_asset : Asset) (info : MessageInfo)
    (allowance : String → Nat) : Except ContractError Unit :=
  match initial_asset.info with
  | .NativeToken _ =>
    match assert_sent_native_token_balance initial_asset info with
    | .error e => .error (.Std e)
    | .ok _ => .ok ()
  | .Token contract_addr =>
    if allowance contract_addr ≠ initial_asset.amount then
      .error .InvalidTokenDeposit
    else
      .ok ()

/-- Shallow embedding of `create_dca_order` (lines 45-136). The result pairs
the storage after all writes the handler performed with the outcome; every
error return happens before any write, so the storage component on an error
is the input storage. The external token accounting queried by
`get_token_allowance` (repository code not under `src/`; per the spec,
`get_token_allowance(user, token_ref) -> amount`) is passed in as the
function `allowance` from contract address to granted amount. -/
def create_dca_order (storage : Storage) (info : MessageInfo)
    (allowance : String → Nat) (order_info : CreateDcaOrder) :
    Storage × Except ContractError Response :=
  let initial_asset := order_info.initial_asset
  let target_asset := order_info.target_asset
  let interval := order_info.interval
  let dca_amount := order_info.dca_amount
  let first_purchase := order_info.first_purchase
  -- check that user has not previously created dca strategy with this initial_asset
  let orders := storage.user_dca.getD []
  if ∃ order ∈ orders, order.initial_asset.info = initial_asset.info then
    (storage, .error .AlreadyDeposited)
  -- check that assets are not duplicate
  else if initial_asset.info = target_asset then
    (storage, .error .DuplicateAsset)
  -- check that dca_amount is less than initial_asset.amount
  else if dca_amount > initial_asset.amount then
    (storage, .error .DepositTooSmall)
  else
    -- check that initial_asset.amount is divisible by dca_amount
    match checked_rem initial_asset.amount dca_amount with
    | .error _ => (storage, .error (.Std .DivideByZero))
    | .ok r =>
      if r ≠ 0 then
        (storage, .error .IndivisibleDeposit)
      else
        -- check that user has sent the valid tokens to the contract
        match deposit_check initial_asset info allowance with
        | .error e => (storage, .error e)
        | .ok _ =>
          match checked_add_u64 (storage.user_config.getD default).last_id 1 with
          | none => (storage, .error (.Std .Overflow))
          | some id =>
            let storage1 : Storage := { storage with user_config := some ⟨id⟩ }
            let new_orders := orders ++
              [{ id := id, initial_asset := initial_asset,
                 target_asset := target_asset, interval := interval,
                 last_purchase := first_purchase.getD 0,
                 dca_amount := dca_amount }]
            let storage2 : Storage := { storage1 with user_dca := some new_orders }
            (storage2,
             .ok [("action", "create_dca_order"),
                  ("initial_asset", initial_asset.to_string),
                  ("target_asset", target_asset.to_string),
                  ("interval", toString interval),
                  ("dca_amount", toString dca_amount)])

/-- The order a successful call appends: id `lastId + 1`, the request's
assets, interval and per-purchase amount, and `last_purchase` taken from
`first_purchase.unwrap_or_default()`. -/
def new_order (s : Storage) (o : CreateDcaOrder) : DcaInfo :=
  { id := s.lastId + 1, initial_asset := o.initial_asset,
    target_asset := o.target_asset, interval := o.interval,
    last_purchase := o.first_purchase.getD 0, dca_amount := o.dca_amount }

/-- One creation request: the caller's transaction context, the external
allowance view, and the order parameters. -/
structure Request where
  info : MessageInfo
  allowance : String → Nat
  order_info : CreateDcaOrder

/-- Run a sequence of creation requests in which every call succeeds:
`none` as soon as one call fails. -/
def run_creates (storage : Storage) : List Request → Option Storage
  | [] => some storage
  | r :: rs =>
    match create_dca_order storage r.info r.allowance r.order_info with
    | (_, .error _) => none
    | (s1, .ok _) => run_creates s1 rs

/-- Master case analysis of one `create_dca_order` call: either it returns an
error and the storage as of the return is the input storage, or every
validation passed and it commits exactly the appended order together with
the bumped counter. -/
theorem create_cases (s : Storage) (i : MessageInfo) (al : String → Nat) (o : CreateDcaOrder) :
    (∃ e, create_dca_order s i al o = (s, Except.error e)) ∨
    ((¬ ∃ ord ∈ s.orders, ord.initial_asset.info = o.initial_asset.info) ∧
     o.initial_asset.info ≠ o.target_asset ∧
     o.dca_amount ≤ o.initial_asset.amount ∧
     o.dca_amount ≠ 0 ∧
     o.initial_asset.amount % o.dca_amount = 0 ∧
     deposit_check o.initial_asset i al = Except.ok () ∧
     s.lastId + 1 ≤ U64_MAX ∧
     create_dca_order s i al o =
       (⟨some (s.orders ++ [new_order s o]), some ⟨s.lastId + 1⟩⟩,
        Except.ok [("action", "create_dca_order"),
             ("initial_asset", o.initial_asset.to_string),
             ("target_asset", o.target_asset.to_string),
             ("interval", toString o.interval),
             ("dca_amount", toString o.dca_amount)])) := by
  simp only [create_dca_order]
  split
  · exact Or.inl ⟨_, rfl⟩
  split
  · exact Or.inl ⟨_, rfl⟩
  split
  · exact Or.inl ⟨_, rfl⟩
  split
  · exact Or.inl ⟨_, rfl⟩
  split
  · exact Or.inl ⟨_, rfl⟩
  split
  · exact Or.inl ⟨_, rfl⟩
  split
  · exact Or.inl ⟨_, rfl⟩
  rename_i hdup hsame hlt x1 r heq_rem hr x2 u heq_dc x3 id heq_add
  have hd0 : o.dca_amount ≠ 0 ∧ o.initial_asset.amount % o.dca_amount = r := by
    unfold checked_rem at heq_rem
    split at heq_rem
    · exact absurd heq_rem (by simp)
    · next hne => exact ⟨hne, by injection heq_rem⟩
  have hid : s.lastId + 1 ≤ U64_MAX ∧ id = s.lastId + 1 := by
    unfold checked_add_u64 at heq_add
    split at heq_add
    · next hle =>
      injection heq_add with h
      exact ⟨by simpa [Storage.lastId] using hle, by simp [Storage.lastId, ← h]⟩
    · exact absurd heq_add (by simp)
  have hr0 : r = 0 := by omega
  refine Or.inr ⟨by simpa [Storage.orders] using hdup, hsame, by omega, hd0.1, by omega, ?_, hid.1, ?_⟩
  · cases u
    exact heq_dc
  · rw [hid.2]
    simp [Storage.orders, Storage.lastId, new_order]

/-- A successful call pins down everything: all validations passed, the
counter had room, and the committed storage appends exactly the new order
and bumps the counter. -/
theorem create_ok_spec (s : Storage) (i : MessageInfo) (al : String → Nat)
    (o : CreateDcaOrder) (resp : Response)
    (h : (create_dca_order s i al o).2 = Except.ok resp) :
    (¬ ∃ ord ∈ s.orders, ord.initial_asset.info = o.initial_asset.info) ∧
    o.initial_asset.info ≠ o.target_asset ∧
    o.dca_amount ≤ o.initial_asset.amount ∧
    o.dca_amount ≠ 0 ∧
    o.initial_asset.amount % o.dca_amount = 0 ∧
    deposit_check o.initial_asset i al = Except.ok () ∧
    s.lastId + 1 ≤ U64_MAX ∧
    (create_dca_order s i al o).1 =
      ⟨some (s.orders ++ [new_order s o]), some ⟨s.lastId + 1⟩⟩ := by
  rcases create_cases s i al o with ⟨e, heq⟩ | ⟨h1, h2, h3, h4, h5, h6, h7, heq⟩
  · rw [heq] at h
    simp at h
  · exact ⟨h1, h2, h3, h4, h5, h6, h7, by rw [heq]⟩

/-- Under all validations and a passing deposit check, the call reduces to
the id allocation step: overflow error when the counter is saturated,
otherwise the committed append. -/
theorem create_valid_eq (s : Storage) (i : MessageInfo) (al : String → Nat) (o : CreateDcaOrder)
    (hdup : ¬ ∃ ord ∈ s.orders, ord.initial_asset.info = o.initial_asset.info)
    (hsame : o.initial_asset.info ≠ o.target_asset)
    (hle : o.dca_amount ≤ o.initial_asset.amount)
    (h0 : o.dca_amount ≠ 0)
    (hmod : o.initial_asset.amount % o.dca_amount = 0)
    (hdc : deposit_check o.initial_asset i al = Except.ok ()) :
    create_dca_order s i al o =
      ((match checked_add_u64 s.lastId 1 with
        | none => (s, Except.error (.Std .Overflow))
        | some id =>
          (⟨some (s.orders ++ [DcaInfo.mk id o.initial_asset o.target_asset
              o.interval (o.first_purchase.getD 0) o.dca_amount]),
            some ⟨id⟩⟩,
           Except.ok [("action", "create_dca_order"),
                ("initial_asset", o.initial_asset.to_string),
                ("target_asset", o.target_asset.to_string),
                ("interval", toString o.interval),
                ("dca_amount", toString o.dca_amount)])) :
        Storage × Except ContractError Response) := by
  simp only [create_dca_order, Storage.lastId, Storage.orders]
  rw [if_neg (by simpa [Storage.orders] using hdup)]
  rw [if_neg hsame]
  rw [if_neg (by omega)]
  have hrem : checked_rem o.initial_asset.amount o.dca_amount = Except.ok 0 := by
    simp [checked_rem, h0, hmod]
  rw [hrem]
  simp only [hdc]
  split
  · next h => exact absurd rfl h
  · rfl

/-- Every error return leaves the storage exactly as it was. -/
theorem create_error_frame (s : Storage) (i : MessageInfo) (al : String → Nat)
    (o : CreateDcaOrder) (e : ContractError)
    (h : (create_dca_order s i al o).2 = Except.error e) :
    (create_dca_order s i al o).1 = s := by
  rcases create_cases s i al o with ⟨e', heq⟩ | ⟨_, _, _, _, _, _, _, heq⟩
  · rw [heq]
  · rw [heq] at h
    simp at h

/-- Induction principle: a storage predicate preserved by every successful
call holds after any all-successful run. -/
theorem run_creates_induction (P : Storage → Prop)
    (step : ∀ s i al o resp, P s → (create_dca_order s i al o).2 = Except.ok resp →
      P (create_dca_order s i al o).1) :
    ∀ rs s s', P s → run_creates s rs = some s' → P s' := by
  intro rs
  induction rs with
  | nil =>
    intro s s' hP h
    simp only [run_creates, Option.some.injEq] at h
    rwa [← h]
  | cons r rs ih =>
    intro s s' hP h
    simp only [run_creates] at h
    split at h
    · exact absurd h (by simp)
    · next s1 resp heq =>
      refine ih s1 s' ?_ h
      have hstep := step s r.info r.allowance r.order_info resp hP (by rw [heq])
      rwa [heq] at hstep


/-- A failing deposit check, after the four admission rules pass, surfaces
exactly its own error with the storage untouched. -/
theorem create_deposit_error_eq (s : Storage) (i : MessageInfo) (al : String → Nat)
    (o : CreateDcaOrder) (e : ContractError)
    (hdup : ¬ ∃ ord ∈ s.orders, ord.initial_asset.info = o.initial_asset.info)
    (hsame : o.initial_asset.info ≠ o.target_asset)
    (hle : o.dca_amount ≤ o.initial_asset.amount)
    (h0 : o.dca_amount ≠ 0)
    (hmod : o.initial_asset.amount % o.dca_amount = 0)
    (hdc : deposit_check o.initial_asset i al = Except.error e) :
    create_dca_order s i al o = (s, Except.error e) := by
  simp only [create_dca_order]
  rw [if_neg (by simpa [Storage.orders] using hdup)]
  rw [if_neg hsame]
  rw [if_neg (by omega)]
  have hrem : checked_rem o.initial_asset.amount o.dca_amount = Except.ok 0 := by
    simp [checked_rem, h0, hmod]
  rw [hrem]
  simp only [hdc]
  split
  · next h => exact absurd rfl h
  · rfl

/-- C1 (amended): a candidate with `dca_amount = 0` that passes the
duplicate-source and same-asset rules (and vacuously the minimum-size rule)
is rejected with the divide-by-zero standard error wrapped in the `Std`
rejection kind — a handled error return, not an arithmetic fault — rather
than with `IndivisibleDeposit`. -/
theorem C1_zero_dca_amount_divide_by_zero (s : Storage) (i : MessageInfo)
    (al : String → Nat) (o : CreateDcaOrder)
    (hdup : ¬ ∃ ord ∈ s.orders, ord.initial_asset.info = o.initial_asset.info)
    (hsame : o.initial_asset.info ≠ o.target_asset)
    (h0 : o.dca_amount = 0) :
    create_dca_order s i al o = (s, Except.error (.Std .DivideByZero)) := by
  simp only [create_dca_order]
  rw [if_neg (by simpa [Storage.orders] using hdup)]
  rw [if_neg hsame]
  rw [if_neg (by omega)]
  have hrem : checked_rem o.initial_asset.amount o.dca_amount = Except.error () := by
    simp [checked_rem, h0]
  rw [hrem]

/-- C1 witness: concrete zero-amount candidate. -/
theorem C1_zero_dca_amount_divide_by_zero_witness :
    create_dca_order Storage.empty ⟨[]⟩ (fun _ => 0)
        ⟨⟨.Token "tokenX", 100⟩, .Token "tokenY", 3600, 0, none⟩ =
      (Storage.empty, Except.error (.Std .DivideByZero)) :=
  C1_zero_dca_amount_divide_by_zero Storage.empty ⟨[]⟩ (fun _ => 0)
    ⟨⟨.Token "tokenX", 100⟩, .Token "tokenY", 3600, 0, none⟩
    (by decide) (by decide) rfl

/-- C1 counterexample: the zero-amount candidate is rejected with the
wrapped divide-by-zero standard error, not with `IndivisibleDeposit` as the
claim states. -/
theorem C1_counterexample :
    (create_dca_order Storage.empty ⟨[]⟩ (fun _ => 0)
        ⟨⟨.Token "tokenX", 100⟩, .Token "tokenY", 3600, 0, none⟩).2 =
      Except.error (.Std .DivideByZero) ∧
    (create_dca_order Storage.empty ⟨[]⟩ (fun _ => 0)
        ⟨⟨.Token "tokenX", 100⟩, .Token "tokenY", 3600, 0, none⟩).2 ≠
      Except.error .IndivisibleDeposit := by
  constructor
  · rfl
  · decide

/-- C2: every rejected call leaves the user's persisted order sequence and
config counter exactly as they were before the attempt; no persisted
mutation is observable on failure. -/
theorem C2_no_partial_writes (s : Storage) (i : MessageInfo) (al : String → Nat)
    (o : CreateDcaOrder) (e : ContractError)
    (h : (create_dca_order s i al o).2 = Except.error e) :
    (create_dca_order s i al o).1 = s :=
  create_error_frame s i al o e h

/-- C2 witness: a duplicate-asset rejection on a non-empty storage leaves it
untouched. -/
theorem C2_no_partial_writes_witness :
    (create_dca_order ⟨some [⟨1, ⟨.Token "tokenX", 100⟩, .Token "tokenY", 3600, 0, 10⟩], some ⟨1⟩⟩
        ⟨[]⟩ (fun _ => 100) ⟨⟨.Token "tokenZ", 60⟩, .Token "tokenZ", 60, 6, none⟩).1 =
      ⟨some [⟨1, ⟨.Token "tokenX", 100⟩, .Token "tokenY", 3600, 0, 10⟩], some ⟨1⟩⟩ :=
  C2_no_partial_writes _ _ _ _ ContractError.DuplicateAsset (by decide)

/-- C3 (amended): for a token-funded candidate passing the four admission
rules, as long as the user's id counter is below its representable maximum
the call succeeds iff the caller's allowance equals the declared amount
exactly; a mismatched allowance (in particular one unit above or below) is
rejected with `InvalidTokenDeposit` regardless of the counter. -/
theorem C3_exact_allowance (s : Storage) (i : MessageInfo) (al : String → Nat)
    (o : CreateDcaOrder) (addr : String)
    (hinfo : o.initial_asset.info = .Token addr)
    (hdup : ¬ ∃ ord ∈ s.orders, ord.initial_asset.info = o.initial_asset.info)
    (hsame : o.initial_asset.info ≠ o.target_asset)
    (hle : o.dca_amount ≤ o.initial_asset.amount)
    (h0 : o.dca_amount ≠ 0)
    (hmod : o.initial_asset.amount % o.dca_amount = 0) :
    (s.lastId < U64_MAX →
      ((∃ resp, (create_dca_order s i al o).2 = Except.ok resp) ↔
        al addr = o.initial_asset.amount)) ∧
    (al addr ≠ o.initial_asset.amount →
      create_dca_order s i al o = (s, Except.error .InvalidTokenDeposit)) := by
  have hdc_eq : deposit_check o.initial_asset i al =
      (if al addr ≠ o.initial_asset.amount then Except.error .InvalidTokenDeposit
       else Except.ok ()) := by
    simp only [deposit_check, hinfo]
  constructor
  · intro hcnt
    constructor
    · rintro ⟨resp, hok⟩
      have hspec := create_ok_spec s i al o resp hok
      have hdc := hspec.2.2.2.2.2.1
      rw [hdc_eq] at hdc
      by_cases hal : al addr = o.initial_asset.amount
      · exact hal
      · rw [if_pos hal] at hdc
        simp at hdc
    · intro hal
      have hdc : deposit_check o.initial_asset i al = Except.ok () := by
        rw [hdc_eq, if_neg (by simpa using hal)]
      have heq := create_valid_eq s i al o hdup hsame hle h0 hmod hdc
      have hadd : checked_add_u64 s.lastId 1 = some (s.lastId + 1) := by
        unfold checked_add_u64
        rw [if_pos (by omega)]
      rw [hadd] at heq
      exact ⟨_, by rw [heq]⟩
  · intro hal
    have hdc : deposit_check o.initial_asset i al = Except.error .InvalidTokenDeposit := by
      rw [hdc_eq, if_pos hal]
    exact create_deposit_error_eq s i al o _ hdup hsame hle h0 hmod hdc

/-- C3 witness: with a fresh user, exact allowance succeeds and a one-unit
excess is rejected with `InvalidTokenDeposit`. -/
theorem C3_exact_allowance_witness :
    (∃ resp, (create_dca_order Storage.empty ⟨[]⟩ (fun _ => 100)
        ⟨⟨.Token "tokenX", 100⟩, .Token "tokenY", 3600, 10, none⟩).2 = Except.ok resp) ∧
    create_dca_order Storage.empty ⟨[]⟩ (fun _ => 101)
        ⟨⟨.Token "tokenX", 100⟩, .Token "tokenY", 3600, 10, none⟩ =
      (Storage.empty, Except.error .InvalidTokenDeposit) :=
  ⟨((C3_exact_allowance Storage.empty ⟨[]⟩ (fun _ => 100)
      ⟨⟨.Token "tokenX", 100⟩, .Token "tokenY", 3600, 10, none⟩ "tokenX"
      rfl (by decide) (by decide) (by decide) (by decide) (by decide)).1
      (by decide)).mpr rfl,
   (C3_exact_allowance Storage.empty ⟨[]⟩ (fun _ => 101)
      ⟨⟨.Token "tokenX", 100⟩, .Token "tokenY", 3600, 10, none⟩ "tokenX"
      rfl (by decide) (by decide) (by decide) (by decide) (by decide)).2
      (by decide)⟩

/-- C3 counterexample: a token-funded candidate that passes all four
admission rules with an exactly matching allowance is still rejected when
the user's id counter sits at its maximum, so success is not equivalent to
an exact allowance. -/
theorem C3_counterexample :
    (¬ ∃ ord ∈ (⟨none, some ⟨U64_MAX⟩⟩ : Storage).orders,
        ord.initial_asset.info = AssetInfo.Token "tokenX") ∧
    (100 : Nat) % 10 = 0 ∧
    create_dca_order ⟨none, some ⟨U64_MAX⟩⟩ ⟨[]⟩ (fun _ => 100)
        ⟨⟨.Token "tokenX", 100⟩, .Token "tokenY", 3600, 10, none⟩ =
      (⟨none, some ⟨U64_MAX⟩⟩, Except.error (.Std .Overflow)) := by
  refine ⟨by decide, by decide, ?_⟩
  decide

/-- C4: along any all-successful sequence of creations starting from empty
state the stored ids are exactly 1, 2, ..., n (first id 1, each subsequent
id one greater, `lastId` bumped by exactly 1 per success), and when the
counter sits at the representable maximum of its unsigned type the call
cannot succeed — with all validations passing it returns precisely the
overflow error instead of wrapping. -/
theorem C4_id_monotonicity :
    (∀ rs s', run_creates Storage.empty rs = some s' →
       s'.orders.map DcaInfo.id = List.range' 1 s'.orders.length ∧
       s'.lastId = s'.orders.length) ∧
    (∀ s i al o, s.lastId = U64_MAX →
       ((∀ resp, (create_dca_order s i al o).2 ≠ Except.ok resp) ∧
        ((¬ ∃ ord ∈ s.orders, ord.initial_asset.info = o.initial_asset.info) →
         o.initial_asset.info ≠ o.target_asset →
         o.dca_amount ≤ o.initial_asset.amount →
         o.dca_amount ≠ 0 →
         o.initial_asset.amount % o.dca_amount = 0 →
         deposit_check o.initial_asset i al = Except.ok () →
         create_dca_order s i al o = (s, Except.error (.Std .Overflow))))) := by
  constructor
  · intro rs s' hrun
    refine run_creates_induction
      (fun t => t.orders.map DcaInfo.id = List.range' 1 t.orders.length ∧
        t.lastId = t.orders.length)
      ?_ rs Storage.empty s' ⟨rfl, rfl⟩ hrun
    intro s i al o resp hP hok
    obtain ⟨-, -, -, -, -, -, -, hcommit⟩ := create_ok_spec s i al o resp hok
    rw [hcommit]
    have h1 : (⟨some (s.orders ++ [new_order s o]), some ⟨s.lastId + 1⟩⟩ : Storage).orders
        = s.orders ++ [new_order s o] := by simp [Storage.orders]
    have h2 : (⟨some (s.orders ++ [new_order s o]), some ⟨s.lastId + 1⟩⟩ : Storage).lastId
        = s.lastId + 1 := by simp [Storage.lastId]
    rw [h1, h2]
    constructor
    · simp only [List.map_append, hP.1, List.map_cons, List.map_nil, new_order,
        List.length_append, List.length_cons, List.length_nil]
      rw [hP.2, List.range'_1_concat]
      simp [Nat.add_comm]
    · simp [hP.2]
  · intro s i al o hmax
    constructor
    · intro resp hok
      have hspec := create_ok_spec s i al o resp hok
      have hcnt := hspec.2.2.2.2.2.2.1
      rw [hmax] at hcnt
      exact Nat.not_succ_le_self _ hcnt
    · intro hdup hsame hle h0 hmod hdc
      have heq := create_valid_eq s i al o hdup hsame hle h0 hmod hdc
      have hadd : checked_add_u64 s.lastId 1 = none := by
        unfold checked_add_u64
        rw [if_neg (by rw [hmax]; exact Nat.not_succ_le_self _)]
      rw [hadd] at heq
      exact heq

/-- C4 witness: two successful creations from empty state store ids [1, 2],
and a saturated counter yields exactly the overflow rejection. -/
theorem C4_id_monotonicity_witness :
    ((⟨some [⟨1, ⟨.Token "tokenX", 100⟩, .Token "tokenY", 3600, 0, 10⟩,
             ⟨2, ⟨.Token "tokenY", 50⟩, .Token "tokenX", 60, 42, 5⟩], some ⟨2⟩⟩ :
        Storage).orders.map DcaInfo.id =
      List.range' 1 (⟨some [⟨1, ⟨.Token "tokenX", 100⟩, .Token "tokenY", 3600, 0, 10⟩,
             ⟨2, ⟨.Token "tokenY", 50⟩, .Token "tokenX", 60, 42, 5⟩], some ⟨2⟩⟩ :
        Storage).orders.length) ∧
    create_dca_order ⟨none, some ⟨U64_MAX⟩⟩ ⟨[]⟩ (fun _ => 100)
        ⟨⟨.Token "tokenX", 100⟩, .Token "tokenY", 3600, 10, none⟩ =
      (⟨none, some ⟨U64_MAX⟩⟩, Except.error (.Std .Overflow)) :=
  ⟨(C4_id_monotonicity.1
      [⟨⟨[]⟩, fun _ => 100, ⟨⟨.Token "tokenX", 100⟩, .Token "tokenY", 3600, 10, none⟩⟩,
       ⟨⟨[]⟩, fun _ => 50, ⟨⟨.Token "tokenY", 50⟩, .Token "tokenX", 60, 5, some 42⟩⟩]
      _ (by decide)).1,
   (C4_id_monotonicity.2 ⟨none, some ⟨U64_MAX⟩⟩ ⟨[]⟩ (fun _ => 100)
      ⟨⟨.Token "tokenX", 100⟩, .Token "tokenY", 3600, 10, none⟩ rfl).2
      (by decide) (by decide) (by decide) (by decide) (by decide) rfl⟩

/-- C5: after any all-successful sequence of creations by one user starting
from empty state no two stored orders share a source-asset descriptor, and
any candidate whose source descriptor matches an existing order is rejected
with `AlreadyDeposited`. -/
theorem C5_unique_source_asset :
    (∀ rs s', run_creates Storage.empty rs = some s' →
       s'.orders.Pairwise (fun a b => a.initial_asset.info ≠ b.initial_asset.info)) ∧
    (∀ s i al o, (∃ ord ∈ s.orders, ord.initial_asset.info = o.initial_asset.info) →
       create_dca_order s i al o = (s, Except.error .AlreadyDeposited)) := by
  constructor
  · intro rs s' hrun
    refine run_creates_induction
      (fun t => t.orders.Pairwise (fun a b => a.initial_asset.info ≠ b.initial_asset.info))
      ?_ rs Storage.empty s' (by simp [Storage.empty, Storage.orders]) hrun
    intro s i al o resp hP hok
    obtain ⟨hdup, -, -, -, -, -, -, hcommit⟩ := create_ok_spec s i al o resp hok
    rw [hcommit]
    have h1 : (⟨some (s.orders ++ [new_order s o]), some ⟨s.lastId + 1⟩⟩ : Storage).orders
        = s.orders ++ [new_order s o] := by simp [Storage.orders]
    rw [h1, List.pairwise_append]
    refine ⟨hP, by simp, ?_⟩
    intro a ha b hb
    have hb' : b = new_order s o := by simpa using hb
    rw [hb']
    intro hcontra
    exact hdup ⟨a, ha, hcontra⟩
  · intro s i al o h
    simp only [create_dca_order]
    rw [if_pos (by simpa [Storage.orders] using h)]

/-- C5 witness: a stored set with two distinct source descriptors is
pairwise distinct, and re-depositing tokenX is rejected. -/
theorem C5_unique_source_asset_witness :
    ((⟨some [⟨1, ⟨.Token "tokenX", 100⟩, .Token "tokenY", 3600, 0, 10⟩,
             ⟨2, ⟨.Token "tokenY", 50⟩, .Token "tokenX", 60, 42, 5⟩], some ⟨2⟩⟩ :
        Storage).orders.Pairwise (fun a b => a.initial_asset.info ≠ b.initial_asset.info)) ∧
    create_dca_order ⟨some [⟨1, ⟨.Token "tokenX", 100⟩, .Token "tokenY", 3600, 0, 10⟩], some ⟨1⟩⟩
        ⟨[]⟩ (fun _ => 200) ⟨⟨.Token "tokenX", 200⟩, .NativeToken "uusd", 60, 10, none⟩ =
      (⟨some [⟨1, ⟨.Token "tokenX", 100⟩, .Token "tokenY", 3600, 0, 10⟩], some ⟨1⟩⟩,
       Except.error .AlreadyDeposited) :=
  ⟨C5_unique_source_asset.1
      [⟨⟨[]⟩, fun _ => 100, ⟨⟨.Token "tokenX", 100⟩, .Token "tokenY", 3600, 10, none⟩⟩,
       ⟨⟨[]⟩, fun _ => 50, ⟨⟨.Token "tokenY", 50⟩, .Token "tokenX", 60, 5, some 42⟩⟩]
      _ (by decide),
   C5_unique_source_asset.2
      ⟨some [⟨1, ⟨.Token "tokenX", 100⟩, .Token "tokenY", 3600, 0, 10⟩], some ⟨1⟩⟩
      ⟨[]⟩ (fun _ => 200) ⟨⟨.Token "tokenX", 200⟩, .NativeToken "uusd", 60, 10, none⟩
      (by decide)⟩

/-- C6: a successful call only admits an order with a positive per-purchase
amount dividing the total evenly, and along any all-successful run from
empty state every stored order satisfies `0 < dca_amount` and
`initial_asset.amount % dca_amount = 0`. -/
theorem C6_divisibility_invariant :
    (∀ s i al o resp, (create_dca_order s i al o).2 = Except.ok resp →
       0 < o.dca_amount ∧ o.initial_asset.amount % o.dca_amount = 0) ∧
    (∀ rs s', run_creates Storage.empty rs = some s' →
       ∀ ord ∈ s'.orders, 0 < ord.dca_amount ∧
         ord.initial_asset.amount % ord.dca_amount = 0) := by
  constructor
  · intro s i al o resp hok
    obtain ⟨-, -, -, h4, h5, -⟩ := create_ok_spec s i al o resp hok
    exact ⟨Nat.pos_of_ne_zero h4, h5⟩
  · intro rs s' hrun
    refine run_creates_induction
      (fun t => ∀ ord ∈ t.orders, 0 < ord.dca_amount ∧
        ord.initial_asset.amount % ord.dca_amount = 0)
      ?_ rs Storage.empty s' (by simp [Storage.empty, Storage.orders]) hrun
    intro s i al o resp hP hok
    obtain ⟨-, -, -, h4, h5, -, -, hcommit⟩ := create_ok_spec s i al o resp hok
    rw [hcommit]
    have h1 : (⟨some (s.orders ++ [new_order s o]), some ⟨s.lastId + 1⟩⟩ : Storage).orders
        = s.orders ++ [new_order s o] := by simp [Storage.orders]
    rw [h1]
    intro ord hord
    rcases List.mem_append.mp hord with hmem | hmem
    · exact hP ord hmem
    · have : ord = new_order s o := by simpa using hmem
      rw [this]
      exact ⟨Nat.pos_of_ne_zero h4, h5⟩

/-- C6 witness: a concrete successful creation has a positive, evenly
dividing per-purchase amount, and a concrete all-successful run stores only
such orders. -/
theorem C6_divisibility_invariant_witness :
    ((0:Nat) < 10 ∧ (100:Nat) % 10 = 0) ∧
    (∀ ord ∈ (⟨some [⟨1, ⟨.Token "tokenX", 100⟩, .Token "tokenY", 3600, 0, 10⟩], some ⟨1⟩⟩ :
        Storage).orders, 0 < ord.dca_amount ∧
      ord.initial_asset.amount % ord.dca_amount = 0) :=
  ⟨C6_divisibility_invariant.1 Storage.empty ⟨[]⟩ (fun _ => 100)
      ⟨⟨.Token "tokenX", 100⟩, .Token "tokenY", 3600, 10, none⟩ _ rfl,
   C6_divisibility_invariant.2
      [⟨⟨[]⟩, fun _ => 100, ⟨⟨.Token "tokenX", 100⟩, .Token "tokenY", 3600, 10, none⟩⟩]
      _ (by decide)⟩

/-- C7: the admission rules are checked in the fixed order duplicate-source,
same-asset, minimum-size, divisibility, and the rejection is that of the
first failing rule: a duplicate source always wins; with no duplicate a
same-asset candidate yields `DuplicateAsset` whatever else is wrong; next an
oversized per-purchase amount yields `DepositTooSmall`; and only then a
nonzero remainder yields `IndivisibleDeposit`. -/
theorem C7_rule_order (s : Storage) (i : MessageInfo) (al : String → Nat)
    (o : CreateDcaOrder) :
    ((∃ ord ∈ s.orders, ord.initial_asset.info = o.initial_asset.info) →
       create_dca_order s i al o = (s, Except.error .AlreadyDeposited)) ∧
    ((¬ ∃ ord ∈ s.orders, ord.initial_asset.info = o.initial_asset.info) →
     o.initial_asset.info = o.target_asset →
       create_dca_order s i al o = (s, Except.error .DuplicateAsset)) ∧
    ((¬ ∃ ord ∈ s.orders, ord.initial_asset.info = o.initial_asset.info) →
     o.initial_asset.info ≠ o.target_asset →
     o.dca_amount > o.initial_asset.amount →
       create_dca_order s i al o = (s, Except.error .DepositTooSmall)) ∧
    ((¬ ∃ ord ∈ s.orders, ord.initial_asset.info = o.initial_asset.info) →
     o.initial_asset.info ≠ o.target_asset →
     o.dca_amount ≤ o.initial_asset.amount →
     o.dca_amount ≠ 0 →
     o.initial_asset.amount % o.dca_amount ≠ 0 →
       create_dca_order s i al o = (s, Except.error .IndivisibleDeposit)) := by
  refine ⟨?_, ?_, ?_, ?_⟩
  · intro h
    simp only [create_dca_order]
    rw [if_pos (by simpa [Storage.orders] using h)]
  · intro hdup hsame
    simp only [create_dca_order]
    rw [if_neg (by simpa [Storage.orders] using hdup), if_pos hsame]
  · intro hdup hsame hgt
    simp only [create_dca_order]
    rw [if_neg (by simpa [Storage.orders] using hdup), if_neg hsame, if_pos hgt]
  · intro hdup hsame hle h0 hmod
    simp only [create_dca_order]
    rw [if_neg (by simpa [Storage.orders] using hdup), if_neg hsame,
      if_neg (by omega)]
    have hrem : checked_rem o.initial_asset.amount o.dca_amount =
        Except.ok (o.initial_asset.amount % o.dca_amount) := by
      simp [checked_rem, h0]
    simp only [hrem]
    rw [if_pos hmod]

/-- C7 witness: a candidate violating both the same-asset and the
divisibility rules is rejected with the same-asset error; concrete
instances hit each of the four rejections. -/
theorem C7_rule_order_witness :
    create_dca_order ⟨some [⟨1, ⟨.Token "tokenX", 100⟩, .Token "tokenY", 3600, 0, 10⟩], some ⟨1⟩⟩
        ⟨[]⟩ (fun _ => 100) ⟨⟨.Token "tokenX", 100⟩, .Token "tokenX", 60, 7, none⟩ =
      (⟨some [⟨1, ⟨.Token "tokenX", 100⟩, .Token "tokenY", 3600, 0, 10⟩], some ⟨1⟩⟩,
       Except.error .AlreadyDeposited) ∧
    create_dca_order Storage.empty ⟨[]⟩ (fun _ => 100)
        ⟨⟨.Token "tokenX", 100⟩, .Token "tokenX", 60, 7, none⟩ =
      (Storage.empty, Except.error .DuplicateAsset) ∧
    create_dca_order Storage.empty ⟨[]⟩ (fun _ => 100)
        ⟨⟨.Token "tokenX", 100⟩, .Token "tokenY", 60, 150, none⟩ =
      (Storage.empty, Except.error .DepositTooSmall) ∧
    create_dca_order Storage.empty ⟨[]⟩ (fun _ => 100)
        ⟨⟨.Token "tokenX", 100⟩, .Token "tokenY", 60, 7, none⟩ =
      (Storage.empty, Except.error .IndivisibleDeposit) :=
  ⟨(C7_rule_order _ ⟨[]⟩ (fun _ => 100) _).1 (by decide),
   (C7_rule_order Storage.empty ⟨[]⟩ (fun _ => 100) _).2.1 (by decide) rfl,
   (C7_rule_order Storage.empty ⟨[]⟩ (fun _ => 100) _).2.2.1 (by decide) (by decide) (by decide),
   (C7_rule_order Storage.empty ⟨[]⟩ (fun _ => 100) _).2.2.2 (by decide) (by decide)
     (by decide) (by decide) (by decide)⟩

/-- C8 (amended): a native-funded candidate passing the four admission rules
succeeds whenever the transaction attached at least the declared amount of
that currency — attaching more than the declared amount is not itself a
rejection at this layer — provided the user's id counter is below its
representable maximum. -/
theorem C8_native_at_least (s : Storage) (i : MessageInfo) (al : String → Nat)
    (o : CreateDcaOrder) (denom : String)
    (hinfo : o.initial_asset.info = .NativeToken denom)
    (hdup : ¬ ∃ ord ∈ s.orders, ord.initial_asset.info = o.initial_asset.info)
    (hsame : o.initial_asset.info ≠ o.target_asset)
    (hle : o.dca_amount ≤ o.initial_asset.amount)
    (h0 : o.dca_amount ≠ 0)
    (hmod : o.initial_asset.amount % o.dca_amount = 0)
    (hcnt : s.lastId < U64_MAX)
    (hfunds : o.initial_asset.amount ≤ attached_amount denom i.funds) :
    (create_dca_order s i al o).2.isOk = true := by
  have hdc : deposit_check o.initial_asset i al = Except.ok () := by
    simp [deposit_check, assert_sent_native_token_balance, hinfo, hfunds]
  have heq := create_valid_eq s i al o hdup hsame hle h0 hmod hdc
  have hadd : checked_add_u64 s.lastId 1 = some (s.lastId + 1) := by
    unfold checked_add_u64
    rw [if_pos (by omega)]
  rw [hadd] at heq
  rw [heq]
  rfl

/-- C8 witness: attaching 150 uusd for a declared amount of 100 succeeds. -/
theorem C8_native_at_least_witness :
    (create_dca_order Storage.empty ⟨[⟨"uusd", 150⟩]⟩ (fun _ => 0)
        ⟨⟨.NativeToken "uusd", 100⟩, .Token "tokenY", 3600, 10, none⟩).2.isOk = true :=
  C8_native_at_least Storage.empty ⟨[⟨"uusd", 150⟩]⟩ (fun _ => 0)
    ⟨⟨.NativeToken "uusd", 100⟩, .Token "tokenY", 3600, 10, none⟩ "uusd"
    rfl (by decide) (by decide) (by decide) (by decide) (by decide) (by decide) (by decide)

/-- C8 counterexample: a native-funded candidate passing the four rules with
the full declared amount attached is still rejected when the user's id
counter sits at its maximum, so such a call does not succeed whenever
enough currency is attached. -/
theorem C8_counterexample :
    (100 : Nat) ≤ attached_amount "uusd" [⟨"uusd", 100⟩] ∧
    create_dca_order ⟨none, some ⟨U64_MAX⟩⟩ ⟨[⟨"uusd", 100⟩]⟩ (fun _ => 0)
        ⟨⟨.NativeToken "uusd", 100⟩, .Token "tokenY", 3600, 10, none⟩ =
      (⟨none, some ⟨U64_MAX⟩⟩, Except.error (.Std .Overflow)) :=
  ⟨by decide, by decide⟩

/-- C9: a successful call persists exactly the previous order sequence
(empty when absent) with the single new order appended at the end; all
previously stored orders are unchanged and keep their relative order. -/
theorem C9_append_preserves_prior (s : Storage) (i : MessageInfo) (al : String → Nat)
    (o : CreateDcaOrder) (resp : Response)
    (h : (create_dca_order s i al o).2 = Except.ok resp) :
    (create_dca_order s i al o).1.user_dca = some (s.orders ++ [new_order s o]) := by
  have hc := (create_ok_spec s i al o resp h).2.2.2.2.2.2.2
  rw [hc]

/-- C9 witness: with one previously stored order the committed sequence is
that order followed by the new one. -/
theorem C9_append_preserves_prior_witness :
    (create_dca_order ⟨some [⟨1, ⟨.Token "tokenX", 100⟩, .Token "tokenY", 3600, 0, 10⟩], some ⟨1⟩⟩
        ⟨[]⟩ (fun _ => 50) ⟨⟨.Token "tokenY", 50⟩, .Token "tokenX", 60, 5, some 42⟩).1.user_dca =
      some ((⟨some [⟨1, ⟨.Token "tokenX", 100⟩, .Token "tokenY", 3600, 0, 10⟩], some ⟨1⟩⟩ :
          Storage).orders ++
        [new_order ⟨some [⟨1, ⟨.Token "tokenX", 100⟩, .Token "tokenY", 3600, 0, 10⟩], some ⟨1⟩⟩
          ⟨⟨.Token "tokenY", 50⟩, .Token "tokenX", 60, 5, some 42⟩]) :=
  C9_append_preserves_prior _ ⟨[]⟩ (fun _ => 50)
    ⟨⟨.Token "tokenY", 50⟩, .Token "tokenX", 60, 5, some 42⟩ _ rfl

/-- C10: the admitted order is stored with `last_purchase` equal to the
caller-supplied `first_purchase` when present and to the default timestamp
0 when omitted — never the current block time, which the handler does not
consult. -/
theorem C10_first_purchase_default (s : Storage) (i : MessageInfo) (al : String → Nat)
    (o : CreateDcaOrder) (resp : Response)
    (h : (create_dca_order s i al o).2 = Except.ok resp) :
    (create_dca_order s i al o).1.user_dca = some (s.orders ++ [new_order s o]) ∧
    (o.first_purchase = none → (new_order s o).last_purchase = 0) ∧
    (∀ t, o.first_purchase = some t → (new_order s o).last_purchase = t) := by
  refine ⟨?_, ?_, ?_⟩
  · have hc := (create_ok_spec s i al o resp h).2.2.2.2.2.2.2
    rw [hc]
  · intro hnone
    simp [new_order, hnone]
  · intro t ht
    simp [new_order, ht]

/-- C10 witness: an omitted `first_purchase` stores 0, a supplied value of
42 stores 42. -/
theorem C10_first_purchase_default_witness :
    (new_order Storage.empty
      ⟨⟨.Token "tokenX", 100⟩, .Token "tokenY", 3600, 10, none⟩).last_purchase = 0 ∧
    (new_order Storage.empty
      ⟨⟨.Token "tokenY", 50⟩, .Token "tokenX", 60, 5, some 42⟩).last_purchase = 42 :=
  ⟨(C10_first_purchase_default Storage.empty ⟨[]⟩ (fun _ => 100)
      ⟨⟨.Token "tokenX", 100⟩, .Token "tokenY", 3600, 10, none⟩ _ rfl).2.1 rfl,
   (C10_first_purchase_default Storage.empty ⟨[]⟩ (fun _ => 50)
      ⟨⟨.Token "tokenY", 50⟩, .Token "tokenX", 60, 5, some 42⟩ _ rfl).2.2 42 rfl⟩

end AstroportDca
